import Mathlib

/-!
Shallow embedding of the LocalBook backend startup supervisor
(src/src-tauri/src/lib.rs).

Network calls, process spawning and the filesystem are modelled by an
environment oracle `Env`; every source function the claims mention is
translated to a pure Lean function over that oracle, returning, besides
its result, the trace of the observable effects the claims speak about
(status-store writes, spawn attempts, model pulls, health-probe attempts).
Paths are modelled as lists of components; a child-process handle by its
pid (a `Nat`).
-/

namespace LocalBook

/-- Rust struct `BackendStatus { stage, message, last_error }`. -/
structure BackendStatus where
  stage : String
  message : String
  last_error : Option String
deriving DecidableEq

/-- Rust struct `BackendState { process, ready, status }`; the mutex-held
child handle is modelled by its pid. -/
structure BackendState where
  process : Option Nat
  ready : Bool
  status : BackendStatus
deriving DecidableEq

/-- Environment oracle: the outcomes of every network, filesystem and OS
interaction the supervisor performs during one run.
`spawnOllama i p` is the success of the i-th `Command::new(p).arg("serve").spawn()`
call; `healthProbe i` is the result of `check_health()` at the i-th (1-based)
attempt of the readiness polling loop; `spawnBackend exe cwd` is the result of
spawning the backend executable with the given working directory. -/
structure Env where
  ollamaReachable : Bool
  spawnOllama : Nat → String → Bool
  modelAvailable : String → Bool
  pullModel : String → Except String Unit
  resource_dir : Except String (List String)
  pathExists : List String → Bool
  spawnBackend : List String → List String → Except String Nat
  healthProbe : Nat → Except String Bool

/-- Source `check_ollama()`: a 2-second probe of the Ollama listing endpoint;
any failure is reported as `false`.  Its outcome is the oracle field. -/
def check_ollama (env : Env) : Bool :=
  env.ollamaReachable

/-- Source `check_model_available(model_name)`: queries the listing endpoint
and looks for the name as a substring; any failure yields `false`.  The
boolean outcome is the oracle field. -/
def check_model_available (env : Env) (model_name : String) : Bool :=
  env.modelAvailable model_name

/-- Source `pull_ollama_model(model_name)`: a 600-second POST to the pull
endpoint; `Ok(())` on a success status, `Err` otherwise.  The outcome is the
oracle field. -/
def pull_ollama_model (env : Env) (model_name : String) : Except String Unit :=
  env.pullModel model_name

/-- Source constant `REQUIRED_MODELS`. -/
def REQUIRED_MODELS : List (String × String) :=
  [("olmo-3:7b-instruct", "Main AI model (~4.5GB)"),
   ("phi4-mini:latest", "Fast AI model (~2.5GB)"),
   ("snowflake-arctic-embed2", "Embedding model (~1.2GB)")]

/-- Result of the model-ensuring step: the final status record, the ordered
list of status-store writes it performed, and the ordered list of models it
asked the Artifact Fetcher to pull. -/
structure ModelsResult where
  final : BackendStatus
  writes : List BackendStatus
  pullCalls : List String
deriving DecidableEq

/-- One iteration of the loop body of `ensure_required_models` for the pair
`(name, desc)`: set stage `checking_models`; if the model is absent set stage
`downloading_model` and pull it, recording a pull failure into `last_error`. -/
def model_step (env : Env) (st : BackendStatus) (name desc : String) : ModelsResult :=
  let st1 : BackendStatus :=
    { st with stage := "checking_models", message := "Checking " ++ desc ++ "..." }
  if check_model_available env name then
    ⟨st1, [st1], []⟩
  else
    let st2 : BackendStatus :=
      { st1 with stage := "downloading_model",
                 message := "Downloading " ++ desc ++ " (this may take several minutes)..." }
    match pull_ollama_model env name with
    | .ok _ => ⟨st2, [st1, st2], [name]⟩
    | .error e =>
        let st3 : BackendStatus :=
          { st2 with last_error := some ("Failed to download " ++ name ++ ": " ++ e) }
        ⟨st3, [st1, st2, st3], [name]⟩

/-- The loop of `ensure_required_models` over an arbitrary requirement list. -/
def ensure_required_models_go (env : Env) (st : BackendStatus) :
    List (String × String) → ModelsResult
  | [] => ⟨st, [], []⟩
  | m :: rest =>
      let r1 := model_step env st m.1 m.2
      let r2 := ensure_required_models_go env r1.final rest
      ⟨r2.final, r1.writes ++ r2.writes, r1.pullCalls ++ r2.pullCalls⟩

/-- Source `ensure_required_models(status_ref)`. -/
def ensure_required_models (env : Env) (st : BackendStatus) : ModelsResult :=
  ensure_required_models_go env st REQUIRED_MODELS

/-- Source array `ollama_paths` in `ensure_ollama_running`. -/
def ollama_paths : List String :=
  ["/opt/homebrew/bin/ollama",
   "/usr/local/bin/ollama",
   "/Applications/Ollama.app/Contents/Resources/ollama",
   "ollama"]

/-- The first loop of `ensure_ollama_running`: try each path in order,
stopping at the first successful spawn.  Returns the trace of attempted
paths and whether some attempt succeeded.  The index argument counts spawn
calls already made, so the oracle can give each call its own outcome. -/
def try_ollama_paths (env : Env) : List String → Nat → List String × Bool
  | [], _ => ([], false)
  | p :: rest, idx =>
      if env.spawnOllama idx p then ([p], true)
      else
        let r := try_ollama_paths env rest (idx + 1)
        (p :: r.1, r.2)

/-- Source `ensure_ollama_running()`: if `check_ollama` succeeds, return at
once; otherwise loop over `ollama_paths` keeping the first successful spawn,
and if the loop found none, spawn the bare name once more
(the `unwrap_or_else` fallback).  Returns the trace of spawn attempts; the
subsequent ten-round readiness wait only sleeps, probes and logs, so it
contributes nothing a claim mentions. -/
def ensure_ollama_running (env : Env) : List String :=
  if check_ollama env then []
  else
    let r := try_ollama_paths env ollama_paths 0
    if r.2 then r.1 else r.1 ++ ["ollama"]

/-- Platform-specific backend executable name (non-Windows branch). -/
def backend_exe_name : String := "localbook-backend"

/-- The two candidate layouts of `start_backend`, in source order: without,
then with, the extra "resources" directory segment. -/
def candidate_paths (rd : List String) : List (List String) :=
  [rd ++ ["backend", "localbook-backend", backend_exe_name],
   rd ++ ["resources", "backend", "localbook-backend", backend_exe_name]]

/-- One backend spawn attempt: the executable path and the working directory
passed to `current_dir`. -/
structure SpawnCall where
  exe : List String
  cwd : List String
deriving DecidableEq

/-- The candidate loop of `start_backend`: skip candidates that do not exist;
for the first existing one, resolve its parent directory and spawn it there,
returning the child on success and an error if the spawn fails. -/
def try_backend_candidates (env : Env) :
    List (List String) → Except String (Option Nat) × List SpawnCall
  | [] => (.ok none, [])
  | c :: rest =>
      if env.pathExists c then
        if c = [] then (.error "Backend path has no parent directory", [])
        else
          let dir := c.dropLast
          match env.spawnBackend c dir with
          | .ok pid => (.ok (some pid), [⟨c, dir⟩])
          | .error e => (.error ("Failed to start backend: " ++ e), [⟨c, dir⟩])
      else try_backend_candidates env rest

/-- Source `start_backend(app_handle)`: kill any prior instance (no
observable effect in this model), resolve the resource directory, then try
the two candidate paths; if none exists this is dev mode and the absent
handle is returned.  Also returns the trace of backend spawn attempts. -/
def start_backend (env : Env) : Except String (Option Nat) × List SpawnCall :=
  match env.resource_dir with
  | .error e => (.error ("Failed to get resource dir: " ++ e), [])
  | .ok rd => try_backend_candidates env (candidate_paths rd)

/-- The loop of `wait_for_backend_ready`: attempt numbers are 1-based;
each round sleeps one second, then probes; `Ok(true)` ends the loop,
`Ok(false)` and `Err` both continue.  Returns the result and the number of
probe attempts performed. -/
def wait_go (probe : Nat → Except String Bool) : Nat → Nat → Except String Unit × Nat
  | _, 0 => (.error "Backend failed to start within timeout", 0)
  | attempt, r + 1 =>
      match probe attempt with
      | .ok true => (.ok (), 1)
      | _ =>
          let rest := wait_go probe (attempt + 1) r
          (rest.1, rest.2 + 1)

/-- Source `wait_for_backend_ready(max_attempts)`. -/
def wait_for_backend_ready (probe : Nat → Except String Bool) (max_attempts : Nat) :
    Except String Unit × Nat :=
  wait_go probe 1 max_attempts

/-- The status record `setup_backend` installs when it builds the state. -/
def initial_status : BackendStatus :=
  ⟨"starting", "Initializing backend services...", none⟩

/-- The ready flag starts false: `ready: Arc::new(Mutex::new(false))`. -/
def initial_ready : Bool := false

/-- The whole `BackendState` as constructed at the top of `setup_backend`. -/
def initial_backend_state : BackendState :=
  ⟨none, initial_ready, initial_status⟩

/-- Everything one run of the background task produces: the sequence of
status-store contents (the initial record followed by the record after each
lock-and-write block), the final record, the values assigned to the ready
flag and to the process slot, and the effect traces of the sub-steps. -/
structure RunResult where
  statusTrace : List BackendStatus
  finalStatus : BackendStatus
  readyWrites : List Bool
  processWrites : List (Option Nat)
  pullCalls : List String
  ollamaSpawns : List String
  backendSpawns : List SpawnCall
  healthAttempts : Nat
deriving DecidableEq

/-- The background task spawned by `setup_backend`: set stage
`starting_ollama` clearing `last_error`, ensure Ollama, ensure models, set
stage `starting_backend`, launch the backend, and either record the fatal
spawn error or wait for readiness with a budget of 30 probes, ending at
stage `ready` (ready flag set true, `last_error` cleared) or `error`. -/
def run_supervisor (env : Env) : RunResult :=
  let st0 := initial_status
  let st1 : BackendStatus := ⟨"starting_ollama", "Starting Ollama...", none⟩
  let spawns := ensure_ollama_running env
  let mr := ensure_required_models env st1
  let st3 : BackendStatus :=
    { mr.final with stage := "starting_backend", message := "Starting backend..." }
  match start_backend env with
  | (.ok childOpt, bspawns) =>
      let procWrites : List (Option Nat) :=
        match childOpt with
        | some pid => [some pid]
        | none => []
      let st4 : BackendStatus :=
        { st3 with stage := "waiting_for_backend",
                   message := "Waiting for backend to be ready..." }
      match wait_for_backend_ready env.healthProbe 30 with
      | (.ok _, n) =>
          let st5 : BackendStatus := ⟨"ready", "Backend ready", none⟩
          { statusTrace := [st0, st1] ++ mr.writes ++ [st3, st4, st5],
            finalStatus := st5,
            readyWrites := [true],
            processWrites := procWrites,
            pullCalls := mr.pullCalls,
            ollamaSpawns := spawns,
            backendSpawns := bspawns,
            healthAttempts := n }
      | (.error e, n) =>
          let st5 : BackendStatus := ⟨"error", "Backend failed to start", some e⟩
          { statusTrace := [st0, st1] ++ mr.writes ++ [st3, st4, st5],
            finalStatus := st5,
            readyWrites := [],
            processWrites := procWrites,
            pullCalls := mr.pullCalls,
            ollamaSpawns := spawns,
            backendSpawns := bspawns,
            healthAttempts := n }
  | (.error e, bspawns) =>
      let st4 : BackendStatus := ⟨"error", "Backend failed to start", some e⟩
      { statusTrace := [st0, st1] ++ mr.writes ++ [st3, st4],
        finalStatus := st4,
        readyWrites := [],
        processWrites := [],
        pullCalls := mr.pullCalls,
        ollamaSpawns := spawns,
        backendSpawns := bspawns,
        healthAttempts := 0 }

/-- Rank of a stage in the phase order; `checking_models` and
`downloading_model` share a rank because the model loop deliberately
interleaves them, once per required artifact. -/
def stage_rank : String → Nat
  | "starting" => 0
  | "starting_ollama" => 1
  | "checking_models" => 2
  | "downloading_model" => 2
  | "starting_backend" => 3
  | "waiting_for_backend" => 4
  | "ready" => 5
  | "error" => 5
  | _ => 0

/-- Environment oracle of the standalone health-check command:
whether the 2-second client builds, and on a sent request whether the
response arrived and had a success status. -/
structure HealthEnv where
  clientBuild : Except String Unit
  send : Except String Bool

/-- Source `check_health()`: build the client, send the request, report
whether the status code is a success; either failure is an `Err`. -/
def check_health (env : HealthEnv) : Except String Bool :=
  match env.clientBuild with
  | .error e => .error e
  | .ok _ =>
      match env.send with
      | .error e => .error e
      | .ok success => .ok success

/-- Source command `check_backend_health()`: forward an `Ok`, turn any
`Err` into `Ok(false)` after logging. -/
def check_backend_health (env : HealthEnv) : Except String Bool :=
  match check_health env with
  | .ok healthy => .ok healthy
  | .error _ => .ok false

/-- The derived `Clone` of `BackendStatus`: a field-by-field copy. -/
def backend_status_clone (s : BackendStatus) : BackendStatus :=
  { stage := s.stage, message := s.message, last_error := s.last_error }

/-- Source command `is_backend_ready(state)`: lock the ready flag and return
its value; the state is untouched. -/
def is_backend_ready (st : BackendState) : Except String Bool × BackendState :=
  (.ok st.ready, st)

/-- Source command `get_backend_status(state)`: lock the status record and
return a clone of it; the state is untouched. -/
def get_backend_status (st : BackendState) : Except String BackendStatus × BackendState :=
  (.ok (backend_status_clone st.status), st)

/-- The first write of the background task: stage `starting_ollama`, message
set, `last_error` cleared. -/
def starting_ollama_status : BackendStatus :=
  ⟨"starting_ollama", "Starting Ollama...", none⟩

/-- The model step as the supervisor invokes it (its status argument is the
`starting_ollama` record). -/
def supervisor_models (env : Env) : ModelsResult :=
  ensure_required_models env starting_ollama_status

/-- The status record after the `starting_backend` write of the supervisor. -/
def starting_backend_status (env : Env) : BackendStatus :=
  { (supervisor_models env).final with
      stage := "starting_backend", message := "Starting backend..." }

/-- The status record after the `waiting_for_backend` write of the
supervisor. -/
def waiting_status (env : Env) : BackendStatus :=
  { starting_backend_status env with
      stage := "waiting_for_backend", message := "Waiting for backend to be ready..." }

/-- Concrete run where every required model is absent and everything else
succeeds: exhibits the downloading/checking interleaving of the model loop. -/
def envAllAbsent : Env :=
  { ollamaReachable := true,
    spawnOllama := fun _ _ => false,
    modelAvailable := fun _ => false,
    pullModel := fun _ => .ok (),
    resource_dir := .ok ["res"],
    pathExists := fun _ => false,
    spawnBackend := fun _ _ => .error "unused",
    healthProbe := fun _ => .ok true }

/-- Concrete run where the backend never becomes healthy: every readiness
probe reports an unhealthy backend. -/
def envProbeFail : Env :=
  { ollamaReachable := true,
    spawnOllama := fun _ _ => false,
    modelAvailable := fun _ => true,
    pullModel := fun _ => .ok (),
    resource_dir := .ok ["res"],
    pathExists := fun _ => false,
    spawnBackend := fun _ _ => .error "unused",
    healthProbe := fun _ => .ok false }

/-- Concrete run where everything succeeds at the first try. -/
def envAllOk : Env :=
  { ollamaReachable := true,
    spawnOllama := fun _ _ => false,
    modelAvailable := fun _ => true,
    pullModel := fun _ => .ok (),
    resource_dir := .ok ["res"],
    pathExists := fun _ => false,
    spawnBackend := fun _ _ => .error "unused",
    healthProbe := fun _ => .ok true }

/-- Concrete run where Ollama is down and only the second spawn attempt
(the Intel Homebrew path) succeeds. -/
def envSpawnSecond : Env :=
  { ollamaReachable := false,
    spawnOllama := fun i _ => decide (i = 1),
    modelAvailable := fun _ => true,
    pullModel := fun _ => .ok (),
    resource_dir := .ok ["res"],
    pathExists := fun _ => false,
    spawnBackend := fun _ _ => .error "unused",
    healthProbe := fun _ => .ok true }

/-- Concrete run where only the second backend candidate layout (the one
with the extra "resources" segment) exists on disk. -/
def envSecondCandidate : Env :=
  { ollamaReachable := true,
    spawnOllama := fun _ _ => false,
    modelAvailable := fun _ => true,
    pullModel := fun _ => .ok (),
    resource_dir := .ok ["res"],
    pathExists := fun c =>
      decide (c = ["res", "resources", "backend", "localbook-backend", backend_exe_name]),
    spawnBackend := fun _ _ => .ok 7,
    healthProbe := fun _ => .ok true }

/-- Concrete run where exactly the second required model is absent and its
pull fails. -/
def envPullFail : Env :=
  { ollamaReachable := true,
    spawnOllama := fun _ _ => false,
    modelAvailable := fun m => decide (m ≠ "phi4-mini:latest"),
    pullModel := fun _ => .error "boom",
    resource_dir := .ok ["res"],
    pathExists := fun _ => false,
    spawnBackend := fun _ _ => .error "unused",
    healthProbe := fun _ => .ok true }

/-- Concrete health-command environment: the client builds but the request
fails with a connection error. -/
def envHealthErr : HealthEnv :=
  ⟨.ok (), .error "connection refused"⟩

/-! Helper lemmas. -/

/-- Unfolding of one run when the backend launch fails. -/
theorem run_supervisor_start_err (env : Env) (e : String) (bsp : List SpawnCall)
    (h : start_backend env = (.error e, bsp)) :
    run_supervisor env =
      { statusTrace := [initial_status, starting_ollama_status]
          ++ (supervisor_models env).writes
          ++ [starting_backend_status env, ⟨"error", "Backend failed to start", some e⟩],
        finalStatus := ⟨"error", "Backend failed to start", some e⟩,
        readyWrites := [],
        processWrites := [],
        pullCalls := (supervisor_models env).pullCalls,
        ollamaSpawns := ensure_ollama_running env,
        backendSpawns := bsp,
        healthAttempts := 0 } := by
  simp only [run_supervisor, h]
  rfl

/-- Unfolding of one run when the launch succeeds and the readiness wait
succeeds after n probe attempts. -/
theorem run_supervisor_wait_ok (env : Env) (c : Option Nat) (bsp : List SpawnCall)
    (u : Unit) (n : Nat)
    (h1 : start_backend env = (.ok c, bsp))
    (h2 : wait_for_backend_ready env.healthProbe 30 = (.ok u, n)) :
    run_supervisor env =
      { statusTrace := [initial_status, starting_ollama_status]
          ++ (supervisor_models env).writes
          ++ [starting_backend_status env, waiting_status env,
              ⟨"ready", "Backend ready", none⟩],
        finalStatus := ⟨"ready", "Backend ready", none⟩,
        readyWrites := [true],
        processWrites := c.toList.map some,
        pullCalls := (supervisor_models env).pullCalls,
        ollamaSpawns := ensure_ollama_running env,
        backendSpawns := bsp,
        healthAttempts := n } := by
  simp only [run_supervisor, h1, h2]
  cases c <;> rfl

/-- Unfolding of one run when the launch succeeds and every probe of the
readiness wait fails. -/
theorem run_supervisor_wait_err (env : Env) (c : Option Nat) (bsp : List SpawnCall)
    (e : String) (n : Nat)
    (h1 : start_backend env = (.ok c, bsp))
    (h2 : wait_for_backend_ready env.healthProbe 30 = (.error e, n)) :
    run_supervisor env =
      { statusTrace := [initial_status, starting_ollama_status]
          ++ (supervisor_models env).writes
          ++ [starting_backend_status env, waiting_status env,
              ⟨"error", "Backend failed to start", some e⟩],
        finalStatus := ⟨"error", "Backend failed to start", some e⟩,
        readyWrites := [],
        processWrites := c.toList.map some,
        pullCalls := (supervisor_models env).pullCalls,
        ollamaSpawns := ensure_ollama_running env,
        backendSpawns := bsp,
        healthAttempts := n } := by
  simp only [run_supervisor, h1, h2]
  cases c <;> rfl

/-- Every status write of the model loop carries one of its two stages. -/
theorem models_go_writes_stages (env : Env) (ms : List (String × String)) :
    ∀ st : BackendStatus, ∀ s ∈ (ensure_required_models_go env st ms).writes,
      s.stage = "checking_models" ∨ s.stage = "downloading_model" := by
  induction ms with
  | nil =>
      intro st s hs
      simp [ensure_required_models_go] at hs
  | cons m rest ih =>
      intro st s hs
      simp only [ensure_required_models_go, List.mem_append] at hs
      rcases hs with hs | hs
      · by_cases hav : check_model_available env m.1
        · simp [model_step, hav] at hs
          subst hs; left; rfl
        · rcases hp : pull_ollama_model env m.1 with e | u
          · simp [model_step, hav, hp] at hs
            rcases hs with rfl | rfl | rfl
            · left; rfl
            · right; rfl
            · right; rfl
          · simp [model_step, hav, hp] at hs
            rcases hs with rfl | rfl
            · left; rfl
            · right; rfl
      · exact ih _ s hs

/-- The pull calls of the model loop are exactly the absent models, in
declared order. -/
theorem models_go_pullCalls (env : Env) (ms : List (String × String)) :
    ∀ st : BackendStatus, (ensure_required_models_go env st ms).pullCalls
      = (ms.filter (fun m => !check_model_available env m.1)).map (fun m => m.1) := by
  induction ms with
  | nil => intro st; simp [ensure_required_models_go]
  | cons m rest ih =>
      intro st
      by_cases hav : check_model_available env m.1
      · simp [ensure_required_models_go, model_step, hav, ih]
      · rcases hp : pull_ollama_model env m.1 with e | u <;>
          simp [ensure_required_models_go, model_step, hav, hp, ih]

/-- A failed pull of an absent model leaves a write whose `last_error` names
the model and the cause. -/
theorem models_go_records_failure (env : Env) (ms : List (String × String)) :
    ∀ st : BackendStatus, ∀ m ∈ ms, check_model_available env m.1 = false →
      ∀ e, pull_ollama_model env m.1 = .error e →
        ∃ s ∈ (ensure_required_models_go env st ms).writes,
          s.last_error = some ("Failed to download " ++ m.1 ++ ": " ++ e) := by
  induction ms with
  | nil => intro st m hm; simp at hm
  | cons m0 rest ih =>
      intro st m hm hav e hp
      rcases List.mem_cons.mp hm with rfl | hm
      · refine ⟨{ stage := "downloading_model",
                   message := "Downloading " ++ m.2 ++ " (this may take several minutes)...",
                   last_error := some ("Failed to download " ++ m.1 ++ ": " ++ e) }, ?_, rfl⟩
        simp only [ensure_required_models_go, List.mem_append]
        left
        simp [model_step, hav, hp]
      · obtain ⟨s, hs, he⟩ := ih (model_step env st m0.1 m0.2).final m hm hav e hp
        refine ⟨s, ?_, he⟩
        simp only [ensure_required_models_go, List.mem_append]
        right
        exact hs

/-- If every absent model pulls successfully and the incoming record carries
no error, the model loop never sets `last_error`. -/
theorem models_go_no_error (env : Env) (ms : List (String × String)) :
    ∀ st : BackendStatus, st.last_error = none →
      (∀ m ∈ ms, check_model_available env m.1 = false →
        ∃ u, pull_ollama_model env m.1 = .ok u) →
      (∀ s ∈ (ensure_required_models_go env st ms).writes, s.last_error = none)
      ∧ (ensure_required_models_go env st ms).final.last_error = none := by
  induction ms with
  | nil =>
      intro st hst hok
      simpa [ensure_required_models_go] using hst
  | cons m rest ih =>
      intro st hst hok
      by_cases hav : check_model_available env m.1
      · have hfin : (model_step env st m.1 m.2).final.last_error = none := by
          simp [model_step, hav, hst]
        have hrest := ih _ hfin (fun m1 hm1 => hok m1 (List.mem_cons_of_mem m hm1))
        constructor
        · intro s hs
          simp only [ensure_required_models_go, List.mem_append] at hs
          rcases hs with hs | hs
          · simp [model_step, hav] at hs
            subst hs; simpa using hst
          · exact hrest.1 s hs
        · exact hrest.2
      · obtain ⟨u, hp⟩ := hok m (List.mem_cons_self m rest) (by simpa using hav)
        have hfin : (model_step env st m.1 m.2).final.last_error = none := by
          simp [model_step, hav, hp, hst]
        have hrest := ih _ hfin (fun m1 hm1 => hok m1 (List.mem_cons_of_mem m hm1))
        constructor
        · intro s hs
          simp only [ensure_required_models_go, List.mem_append] at hs
          rcases hs with hs | hs
          · simp [model_step, hav, hp] at hs
            rcases hs with hs | hs <;> subst hs <;> simpa using hst
          · exact hrest.1 s hs
        · exact hrest.2

/-- If every probe in the window fails, the readiness loop runs the whole
budget and reports the timeout. -/
theorem wait_go_all_fail (probe : Nat → Except String Bool) :
    ∀ r a, (∀ i, a ≤ i → i < a + r → probe i ≠ .ok true) →
      wait_go probe a r = (.error "Backend failed to start within timeout", r) := by
  intro r
  induction r with
  | zero => intro a h; rfl
  | succ n ih =>
      intro a h
      have ha : probe a ≠ .ok true := h a le_rfl (by omega)
      have hrec := ih (a + 1) (fun i h1 h2 => h i (by omega) (by omega))
      rcases hp : probe a with e | b
      · simp [wait_go, hp, hrec]
      · cases b
        · simp [wait_go, hp, hrec]
        · exact absurd hp ha

/-- If the first successful probe is the k-th, the readiness loop stops
there, having performed exactly k - a + 1 attempts. -/
theorem wait_go_first_success (probe : Nat → Except String Bool) :
    ∀ r a k, a ≤ k → k < a + r → probe k = .ok true →
      (∀ i, a ≤ i → i < k → probe i ≠ .ok true) →
      wait_go probe a r = (.ok (), k - a + 1) := by
  intro r
  induction r with
  | zero => intro a k h1 h2; omega
  | succ n ih =>
      intro a k hak hkr hk hmin
      by_cases hka : k = a
      · subst hka
        have : k - k + 1 = 1 := by omega
        simp [wait_go, hk, this]
      · have ha : probe a ≠ .ok true := hmin a le_rfl (by omega)
        have hrec := ih (a + 1) k (by omega) (by omega) hk
          (fun i h1 h2 => hmin i (by omega) h2)
        have harith : k - a + 1 = (k - (a + 1) + 1) + 1 := by omega
        rcases hp : probe a with e | b
        · simp [wait_go, hp, hrec, harith]
        · cases b
          · simp [wait_go, hp, hrec, harith]
          · exact absurd hp ha

/-- If the first success among the remaining paths is the k-th, the spawn
loop attempts exactly the first k + 1 of them. -/
theorem try_ollama_paths_success (env : Env) :
    ∀ ps : List String, ∀ i k, k < ps.length →
      env.spawnOllama (i + k) (ps.getD k "") = true →
      (∀ j, j < k → env.spawnOllama (i + j) (ps.getD j "") = false) →
      try_ollama_paths env ps i = (ps.take (k + 1), true) := by
  intro ps
  induction ps with
  | nil => intro i k hk; simp at hk
  | cons p rest ih =>
      intro i k hk hs hmin
      cases k with
      | zero =>
          simp only [List.getD_cons_zero] at hs
          simp only [Nat.add_zero] at hs
          simp [try_ollama_paths, hs]
      | succ k0 =>
          have h0 : env.spawnOllama i p = false := by
            have := hmin 0 (Nat.succ_pos k0)
            simpa using this
          have heq : i + (k0 + 1) = (i + 1) + k0 := by omega
          have hrec := ih (i + 1) k0 (by simpa using hk)
            (by rw [← heq]; simpa using hs)
            (fun j hj => by
              have := hmin (j + 1) (by omega)
              have heq2 : i + (j + 1) = (i + 1) + j := by omega
              rw [← heq2]; simpa using this)
          simp [try_ollama_paths, h0, hrec]

/-- If every remaining path fails to spawn, the loop attempts all of them
and reports no success. -/
theorem try_ollama_paths_all_fail (env : Env) :
    ∀ ps : List String, ∀ i,
      (∀ j, j < ps.length → env.spawnOllama (i + j) (ps.getD j "") = false) →
      try_ollama_paths env ps i = (ps, false) := by
  intro ps
  induction ps with
  | nil => intro i h; rfl
  | cons p rest ih =>
      intro i h
      have h0 : env.spawnOllama i p = false := by
        have := h 0 (by simp)
        simpa using this
      have hrec := ih (i + 1) (fun j hj => by
        have := h (j + 1) (by simpa using Nat.succ_lt_succ hj)
        have heq : i + (j + 1) = (i + 1) + j := by omega
        rw [← heq]; simpa using this)
      simp [try_ollama_paths, h0, hrec]

/-- Rank monotonicity for the trace shape common to every branch of the
supervisor: the two fixed opening writes, then the model-loop writes (all of
rank 2), then a rank-monotone suffix that starts at rank 3 or above. -/
theorem pairwise_rank_le_shape (mid suffix : List String)
    (hmid : ∀ s ∈ mid, stage_rank s = 2)
    (hsuf : List.Pairwise (fun a b => stage_rank a ≤ stage_rank b) suffix)
    (hsuf3 : ∀ s ∈ suffix, 3 ≤ stage_rank s) :
    List.Pairwise (fun a b => stage_rank a ≤ stage_rank b)
      ("starting" :: "starting_ollama" :: (mid ++ suffix)) := by
  refine List.pairwise_cons.mpr ⟨?_, List.pairwise_cons.mpr ⟨?_, ?_⟩⟩
  · intro x hx
    have h0 : stage_rank "starting" = 0 := rfl
    rw [h0]
    exact Nat.zero_le _
  · intro x hx
    have h1 : stage_rank "starting_ollama" = 1 := rfl
    rw [h1]
    rcases List.mem_append.mp hx with hx | hx
    · rw [hmid x hx]; omega
    · have := hsuf3 x hx; omega
  · rw [List.pairwise_append]
    refine ⟨?_, hsuf, ?_⟩
    · refine List.pairwise_of_forall_mem_list ?_
      intro a ha b hb
      rw [hmid a ha, hmid b hb]
    · intro a ha b hb
      rw [hmid a ha]
      have := hsuf3 b hb
      omega

/-- An error result of the candidate loop comes from an existing candidate
(with a parent directory) whose spawn failed, or from a candidate that is
the empty path. -/
theorem try_backend_candidates_err (env : Env) :
    ∀ cs : List (List String), ∀ e : String,
      (try_backend_candidates env cs).1 = .error e →
      (∃ c ∈ cs, c = [])
      ∨ ∃ c ∈ cs, env.pathExists c = true
          ∧ ∃ err, env.spawnBackend c c.dropLast = .error err := by
  intro cs
  induction cs with
  | nil => intro e he; simp [try_backend_candidates] at he
  | cons c rest ih =>
      intro e he
      by_cases hex : env.pathExists c
      · by_cases hnil : c = []
        · exact Or.inl ⟨c, List.mem_cons_self c rest, hnil⟩
        · rcases hsp : env.spawnBackend c c.dropLast with err | pid
          · exact Or.inr ⟨c, List.mem_cons_self c rest, hex, err, hsp⟩
          · simp only [try_backend_candidates, hex, if_true, hnil, if_false, hsp] at he
            simp at he
      · simp only [try_backend_candidates, hex] at he
        rcases ih e (by simpa using he) with ⟨c1, hc1, hc2⟩ | ⟨c1, hc1, hc2⟩
        · exact Or.inl ⟨c1, List.mem_cons_of_mem c hc1, hc2⟩
        · exact Or.inr ⟨c1, List.mem_cons_of_mem c hc1, hc2⟩

/-! Claim theorems. -/

/-- C1 (amended): for every environment, the sequence of stages written to
the Status Store during one supervisor run never moves backward through the
phase order in which `checking_models` and `downloading_model` share one
level: any earlier write has a rank no greater than any later write under
`stage_rank`.  The original strict order, with `downloading_model` strictly
after `checking_models` and each stage entered at most once, fails: the
model loop returns to `checking_models` for the next artifact after a
download (see the counterexample). -/
theorem stage_trace_monotone (env : Env) :
    List.Pairwise (fun a b => stage_rank a ≤ stage_rank b)
      ((run_supervisor env).statusTrace.map (fun s => s.stage)) := by
  have hmid : ∀ s ∈ (supervisor_models env).writes.map (fun t => t.stage),
      stage_rank s = 2 := by
    intro s hs
    simp only [List.mem_map] at hs
    obtain ⟨t, ht, rfl⟩ := hs
    rcases models_go_writes_stages env REQUIRED_MODELS starting_ollama_status t ht with h | h <;>
      rw [h] <;> rfl
  rcases hsb : start_backend env with ⟨res, bsp⟩
  rcases res with e | c
  · rw [run_supervisor_start_err env e bsp hsb]
    have := pairwise_rank_le_shape
      ((supervisor_models env).writes.map (fun t => t.stage))
      ["starting_backend", "error"] hmid (by decide) (by decide)
    simpa [initial_status, starting_ollama_status, starting_backend_status,
      List.map_append] using this
  · rcases hw : wait_for_backend_ready env.healthProbe 30 with ⟨wres, n⟩
    rcases wres with e | u
    · rw [run_supervisor_wait_err env c bsp e n hsb hw]
      have := pairwise_rank_le_shape
        ((supervisor_models env).writes.map (fun t => t.stage))
        ["starting_backend", "waiting_for_backend", "error"] hmid (by decide) (by decide)
      simpa [initial_status, starting_ollama_status, starting_backend_status,
        waiting_status, List.map_append] using this
    · rw [run_supervisor_wait_ok env c bsp u n hsb hw]
      have := pairwise_rank_le_shape
        ((supervisor_models env).writes.map (fun t => t.stage))
        ["starting_backend", "waiting_for_backend", "ready"] hmid (by decide) (by decide)
      simpa [initial_status, starting_ollama_status, starting_backend_status,
        waiting_status, List.map_append] using this

/-- C1 counterexample: in the concrete run where every required model is
absent, the fourth status write has stage `downloading_model` and the fifth
is back at `checking_models`, so after the stage has been set to
`downloading_model` it is set to `checking_models` again, against the
claimed strict forward order. -/
theorem stage_trace_backward_counterexample :
    ((run_supervisor envAllAbsent).statusTrace.map (fun s => s.stage)).getD 3 ""
        = "downloading_model"
    ∧ ((run_supervisor envAllAbsent).statusTrace.map (fun s => s.stage)).getD 4 ""
        = "checking_models" :=
  ⟨rfl, rfl⟩

/-- C2: once the supervisor reaches the readiness wait (the launch returned
without error), if each of the 30 probes answers unhealthy or an error the
loop performs exactly 30 attempts and the final state is stage `error` with
a non-empty `last_error`, while on a first success at attempt k the loop
stops after exactly k attempts, the ready flag is written true, the stage
becomes `ready` and `last_error` is cleared. -/
theorem readiness_poll_budget (env : Env)
    (hstart : ∃ c bsp, start_backend env = (.ok c, bsp)) :
    ((∀ i, 1 ≤ i → i ≤ 30 → env.healthProbe i ≠ .ok true) →
      (run_supervisor env).healthAttempts = 30
      ∧ (run_supervisor env).finalStatus.stage = "error"
      ∧ ∃ e, (run_supervisor env).finalStatus.last_error = some e ∧ e ≠ "")
    ∧ (∀ k, 1 ≤ k → k ≤ 30 → env.healthProbe k = .ok true →
        (∀ i, 1 ≤ i → i < k → env.healthProbe i ≠ .ok true) →
      (run_supervisor env).healthAttempts = k
      ∧ (run_supervisor env).readyWrites = [true]
      ∧ (run_supervisor env).finalStatus.stage = "ready"
      ∧ (run_supervisor env).finalStatus.last_error = none) := by
  obtain ⟨c, bsp, hsb⟩ := hstart
  constructor
  · intro hall
    have hw : wait_go env.healthProbe 1 30
        = (.error "Backend failed to start within timeout", 30) :=
      wait_go_all_fail env.healthProbe 30 1 (fun i h1 h2 => hall i h1 (by omega))
    have hw2 : wait_for_backend_ready env.healthProbe 30
        = (.error "Backend failed to start within timeout", 30) := hw
    rw [run_supervisor_wait_err env c bsp _ 30 hsb hw2]
    refine ⟨rfl, rfl, "Backend failed to start within timeout", rfl, by decide⟩
  · intro k hk1 hk30 hk hmin
    have hw : wait_go env.healthProbe 1 30 = (.ok (), k - 1 + 1) :=
      wait_go_first_success env.healthProbe 30 1 k hk1 (by omega) hk
        (fun i h1 h2 => hmin i h1 h2)
    have hw2 : wait_for_backend_ready env.healthProbe 30 = (.ok (), k - 1 + 1) := hw
    rw [run_supervisor_wait_ok env c bsp () (k - 1 + 1) hsb hw2]
    refine ⟨by simp; omega, rfl, rfl, rfl⟩

/-- C2 witness: in the concrete run where every probe answers unhealthy,
the loop runs its whole budget of 30 attempts and ends at stage `error`. -/
theorem readiness_poll_budget_witness :
    (run_supervisor envProbeFail).healthAttempts = 30
    ∧ (run_supervisor envProbeFail).finalStatus.stage = "error" := by
  have hp : ∀ i, 1 ≤ i → i ≤ 30 → envProbeFail.healthProbe i ≠ .ok true := by
    intro i _ _ h
    simp [envProbeFail] at h
  have h := (readiness_poll_budget envProbeFail ⟨none, [], rfl⟩).1 hp
  exact ⟨h.1, h.2.1⟩

/-- C3: the model step asks the Artifact Fetcher for exactly the absent
models, in declared order (hence at most N calls for N requirements and
zero calls when all are present), it does not stop at a fetch failure, and
each fetch failure leaves a status write whose `last_error` names the model
and the cause. -/
theorem model_fetch_policy (env : Env) (st : BackendStatus) :
    (ensure_required_models env st).pullCalls
      = (REQUIRED_MODELS.filter (fun m => !check_model_available env m.1)).map
          (fun m => m.1)
    ∧ ∀ m ∈ REQUIRED_MODELS, check_model_available env m.1 = false →
        ∀ e, pull_ollama_model env m.1 = .error e →
          ∃ s ∈ (ensure_required_models env st).writes,
            s.last_error = some ("Failed to download " ++ m.1 ++ ": " ++ e) :=
  ⟨models_go_pullCalls env REQUIRED_MODELS st,
   models_go_records_failure env REQUIRED_MODELS st⟩

/-- C3 witness: with only the second required model absent and its pull
failing, exactly that model is fetched and the failure is recorded with its
name. -/
theorem model_fetch_policy_witness :
    (ensure_required_models envPullFail initial_status).pullCalls = ["phi4-mini:latest"]
    ∧ ∃ s ∈ (ensure_required_models envPullFail initial_status).writes,
        s.last_error = some "Failed to download phi4-mini:latest: boom" := by
  have h := model_fetch_policy envPullFail initial_status
  refine ⟨h.1.trans (by rfl), ?_⟩
  exact h.2 ("phi4-mini:latest", "Fast AI model (~2.5GB)") (by simp [REQUIRED_MODELS])
    rfl "boom" rfl

/-- C4: when the resource directory resolves and no candidate executable
path exists, the launch returns the absent handle with no spawn attempt and
no error; and an error result can arise only from a failed resource-dir
resolution or from an existing candidate whose spawn failed. -/
theorem launch_backend_absent (env : Env) :
    (∀ rd, env.resource_dir = .ok rd →
      (∀ p ∈ candidate_paths rd, env.pathExists p = false) →
      start_backend env = (.ok none, []))
    ∧ (∀ e, (start_backend env).1 = .error e →
        (∃ msg, env.resource_dir = .error msg)
        ∨ ∃ rd, env.resource_dir = .ok rd
            ∧ ∃ p ∈ candidate_paths rd, env.pathExists p = true
                ∧ ∃ err, env.spawnBackend p p.dropLast = .error err) := by
  constructor
  · intro rd hrd hab
    have h1 := hab (rd ++ ["backend", "localbook-backend", backend_exe_name])
      (by simp [candidate_paths])
    have h2 := hab (rd ++ ["resources", "backend", "localbook-backend", backend_exe_name])
      (by simp [candidate_paths])
    simp [start_backend, hrd, candidate_paths, try_backend_candidates, h1, h2]
  · intro e he
    rcases hrd : env.resource_dir with msg | rd
    · exact Or.inl ⟨msg, rfl⟩
    · refine Or.inr ⟨rd, rfl, ?_⟩
      simp only [start_backend, hrd] at he
      rcases try_backend_candidates_err env (candidate_paths rd) e he with
        ⟨c1, hc1, hc2⟩ | h
      · exfalso
        simp only [candidate_paths, List.mem_cons, List.mem_singleton] at hc1
        rcases hc1 with rfl | hc1
        · simp at hc2
        · simp only [List.not_mem_nil, or_false] at hc1
          subst hc1
          simp at hc2
      · exact h

/-- C4 witness: in the concrete run whose filesystem holds no candidate,
the launch returns the absent handle with no spawn attempt. -/
theorem launch_backend_absent_witness :
    start_backend envProbeFail = (.ok none, []) :=
  (launch_backend_absent envProbeFail).1 ["res"] rfl (by decide)

/-- C5: the ready flag starts false, the run writes to it at most once and
only with the value true, and that single write happens exactly when the
launch returned without error and the readiness wait succeeded; hence the
flag never goes back from true to false within a run. -/
theorem ready_flag_write_once (env : Env) :
    initial_ready = false
    ∧ ((run_supervisor env).readyWrites = []
        ∨ (run_supervisor env).readyWrites = [true])
    ∧ ((run_supervisor env).readyWrites = [true] ↔
        (∃ c bsp, start_backend env = (.ok c, bsp))
        ∧ (wait_for_backend_ready env.healthProbe 30).1 = .ok ()) := by
  refine ⟨rfl, ?_, ?_⟩
  · rcases hsb : start_backend env with ⟨res, bsp⟩
    rcases res with e | c
    · rw [run_supervisor_start_err env e bsp hsb]; left; rfl
    · rcases hw : wait_for_backend_ready env.healthProbe 30 with ⟨wres, n⟩
      rcases wres with e | u
      · rw [run_supervisor_wait_err env c bsp e n hsb hw]; left; rfl
      · rw [run_supervisor_wait_ok env c bsp u n hsb hw]; right; rfl
  · rcases hsb : start_backend env with ⟨res, bsp⟩
    rcases res with e | c
    · rw [run_supervisor_start_err env e bsp hsb]
      constructor
      · intro h; exact absurd h (by simp)
      · rintro ⟨⟨c, bsp2, hc⟩, hwok⟩
        simp at hc
    · rcases hw : wait_for_backend_ready env.healthProbe 30 with ⟨wres, n⟩
      rcases wres with e | u
      · rw [run_supervisor_wait_err env c bsp e n hsb hw]
        constructor
        · intro h; exact absurd h (by simp)
        · rintro ⟨hstart, hwok⟩
          simp at hwok
      · rw [run_supervisor_wait_ok env c bsp u n hsb hw]
        constructor
        · intro h
          exact ⟨⟨c, bsp, rfl⟩, rfl⟩
        · intro h; rfl

/-- C5 witness: in the concrete all-successful run the ready flag is
written true exactly once. -/
theorem ready_flag_write_once_witness :
    (run_supervisor envAllOk).readyWrites = [true] :=
  ((ready_flag_write_once envAllOk).2.2).mpr ⟨⟨none, [], rfl⟩, rfl⟩

/-- C6: when the Ollama reachability check succeeds no spawn is attempted;
when it fails, the declared paths are attempted in order up to and including
the first successful spawn, and only when all of them fail is one further
bare-name invocation issued via the ambient search path. -/
theorem ollama_spawn_policy (env : Env) :
    (check_ollama env = true → ensure_ollama_running env = [])
    ∧ (check_ollama env = false →
        (∀ k, k < ollama_paths.length →
          env.spawnOllama k (ollama_paths.getD k "") = true →
          (∀ j, j < k → env.spawnOllama j (ollama_paths.getD j "") = false) →
          ensure_ollama_running env = ollama_paths.take (k + 1))
        ∧ ((∀ j, j < ollama_paths.length →
              env.spawnOllama j (ollama_paths.getD j "") = false) →
            ensure_ollama_running env = ollama_paths ++ ["ollama"])) := by
  constructor
  · intro h
    simp [ensure_ollama_running, h]
  · intro h
    constructor
    · intro k hk hs hmin
      have ht := try_ollama_paths_success env ollama_paths 0 k hk
        (by simpa using hs) (fun j hj => by simpa using hmin j hj)
      simp [ensure_ollama_running, h, ht]
    · intro hall
      have ht := try_ollama_paths_all_fail env ollama_paths 0
        (fun j hj => by simpa using hall j hj)
      simp [ensure_ollama_running, h, ht]

/-- C6 witness: with Ollama unreachable and only the second install path
spawning successfully, exactly the first two paths are attempted. -/
theorem ollama_spawn_policy_witness :
    ensure_ollama_running envSpawnSecond
      = ["/opt/homebrew/bin/ollama", "/usr/local/bin/ollama"] := by
  have h := ((ollama_spawn_policy envSpawnSecond).2 rfl).1 1 (by decide)
    (by decide) (by decide)
  exact h.trans (by rfl)

/-- C7: the launch tries the candidate without the extra "resources"
segment first; if it exists it is the one spawned, with its own containing
directory as working directory, and when it is absent but the second
candidate exists, the spawn uses the second candidate and its containing
directory. -/
theorem launch_backend_candidate_order (env : Env) (rd : List String)
    (hrd : env.resource_dir = .ok rd) :
    (env.pathExists (rd ++ ["backend", "localbook-backend", backend_exe_name]) = true →
      (start_backend env).2 =
        [⟨rd ++ ["backend", "localbook-backend", backend_exe_name],
          rd ++ ["backend", "localbook-backend"]⟩])
    ∧ (env.pathExists (rd ++ ["backend", "localbook-backend", backend_exe_name]) = false →
        env.pathExists
          (rd ++ ["resources", "backend", "localbook-backend", backend_exe_name]) = true →
        (start_backend env).2 =
          [⟨rd ++ ["resources", "backend", "localbook-backend", backend_exe_name],
            rd ++ ["resources", "backend", "localbook-backend"]⟩]) := by
  constructor
  · intro h1
    have hne : ¬ rd ++ ["backend", "localbook-backend", backend_exe_name] = [] := by simp
    rcases hsp : env.spawnBackend (rd ++ ["backend", "localbook-backend", backend_exe_name])
        (rd ++ ["backend", "localbook-backend"]) with e | pid <;>
      simp [start_backend, hrd, candidate_paths, try_backend_candidates, h1, hne, hsp]
  · intro h1 h2
    have hne : ¬ rd ++ ["resources", "backend", "localbook-backend", backend_exe_name]
        = [] := by simp
    rcases hsp : env.spawnBackend
        (rd ++ ["resources", "backend", "localbook-backend", backend_exe_name])
        (rd ++ ["resources", "backend", "localbook-backend"]) with e | pid <;>
      simp [start_backend, hrd, candidate_paths, try_backend_candidates, h1, h2, hne, hsp]

/-- C7 witness: in the concrete run where only the second candidate layout
exists, the spawn uses it with its containing folder as working directory. -/
theorem launch_backend_candidate_order_witness :
    (start_backend envSecondCandidate).2 =
      [⟨["res", "resources", "backend", "localbook-backend", backend_exe_name],
        ["res", "resources", "backend", "localbook-backend"]⟩] :=
  (launch_backend_candidate_order envSecondCandidate ["res"] rfl).2 (by decide) (by decide)

/-- C8: the Status Store starts an attempt with `last_error` cleared (the
initial record and the first background write both carry none), every
record whose stage is `ready` carries none, and when no sub-step fails
(every absent model pulls successfully, the launch returns without error,
the readiness wait succeeds) no write of the whole run ever sets
`last_error`. -/
theorem last_error_discipline (env : Env) :
    (∀ s ∈ (run_supervisor env).statusTrace.take 2, s.last_error = none)
    ∧ (∀ s ∈ (run_supervisor env).statusTrace, s.stage = "ready" → s.last_error = none)
    ∧ ((∀ m ∈ REQUIRED_MODELS, check_model_available env m.1 = false →
          ∃ u, pull_ollama_model env m.1 = .ok u) →
        (∃ c bsp, start_backend env = (.ok c, bsp)) →
        (wait_for_backend_ready env.healthProbe 30).1 = .ok () →
        (∀ s ∈ (run_supervisor env).statusTrace, s.last_error = none)
        ∧ (run_supervisor env).finalStatus.last_error = none) := by
  have hstage := models_go_writes_stages env REQUIRED_MODELS starting_ollama_status
  refine ⟨?_, ?_, ?_⟩
  · rcases hsb : start_backend env with ⟨res, bsp⟩
    rcases res with e | c
    · rw [run_supervisor_start_err env e bsp hsb]
      intro s hs
      simp [initial_status, starting_ollama_status, List.take] at hs
      rcases hs with rfl | rfl <;> rfl
    · rcases hw : wait_for_backend_ready env.healthProbe 30 with ⟨wres, n⟩
      rcases wres with e | u <;>
        [rw [run_supervisor_wait_err env c bsp e n hsb hw];
         rw [run_supervisor_wait_ok env c bsp u n hsb hw]] <;>
      · intro s hs
        simp [initial_status, starting_ollama_status, List.take] at hs
        rcases hs with rfl | rfl <;> rfl
  · rcases hsb : start_backend env with ⟨res, bsp⟩
    rcases res with e | c
    · rw [run_supervisor_start_err env e bsp hsb]
      intro s hs hstg
      simp only [List.append_assoc, List.mem_append, List.mem_cons,
        List.mem_singleton, List.not_mem_nil, or_false] at hs
      rcases hs with (rfl | rfl) | hs | rfl | rfl
      · simp [initial_status] at hstg
      · simp [starting_ollama_status] at hstg
      · rcases hstage s hs with h | h <;> rw [h] at hstg <;> simp at hstg
      · simp [starting_backend_status] at hstg
      · simp at hstg
    · rcases hw : wait_for_backend_ready env.healthProbe 30 with ⟨wres, n⟩
      rcases wres with e | u
      · rw [run_supervisor_wait_err env c bsp e n hsb hw]
        intro s hs hstg
        simp only [List.append_assoc, List.mem_append, List.mem_cons,
          List.mem_singleton, List.not_mem_nil, or_false] at hs
        rcases hs with (rfl | rfl) | hs | rfl | rfl | rfl
        · simp [initial_status] at hstg
        · simp [starting_ollama_status] at hstg
        · rcases hstage s hs with h | h <;> rw [h] at hstg <;> simp at hstg
        · simp [starting_backend_status] at hstg
        · simp [waiting_status, starting_backend_status] at hstg
        · simp at hstg
      · rw [run_supervisor_wait_ok env c bsp u n hsb hw]
        intro s hs hstg
        simp only [List.append_assoc, List.mem_append, List.mem_cons,
          List.mem_singleton, List.not_mem_nil, or_false] at hs
        rcases hs with (rfl | rfl) | hs | rfl | rfl | rfl
        · simp [initial_status] at hstg
        · simp [starting_ollama_status] at hstg
        · rcases hstage s hs with h | h <;> rw [h] at hstg <;> simp at hstg
        · simp [starting_backend_status] at hstg
        · simp [waiting_status, starting_backend_status] at hstg
        · rfl
  · intro hpull hstart hwait
    obtain ⟨c, bsp, hsb⟩ := hstart
    rcases hw : wait_for_backend_ready env.healthProbe 30 with ⟨wres, n⟩
    rw [hw] at hwait
    rcases wres with e | u
    · exact absurd hwait (by simp)
    · rw [run_supervisor_wait_ok env c bsp u n hsb hw]
      have hmods := models_go_no_error env REQUIRED_MODELS starting_ollama_status rfl hpull
      have hfin : (supervisor_models env).final.last_error = none := hmods.2
      constructor
      · intro s hs
        simp only [List.append_assoc, List.mem_append, List.mem_cons,
          List.mem_singleton, List.not_mem_nil, or_false] at hs
        rcases hs with (rfl | rfl) | hs | rfl | rfl | rfl
        · rfl
        · rfl
        · exact hmods.1 s hs
        · simpa [starting_backend_status] using hfin
        · simpa [waiting_status, starting_backend_status] using hfin
        · rfl
      · rfl

/-- C8 witness: in the concrete all-successful run the terminal record
carries no error. -/
theorem last_error_discipline_witness :
    (run_supervisor envAllOk).finalStatus.last_error = none := by
  have hpull : ∀ m ∈ REQUIRED_MODELS, check_model_available envAllOk m.1 = false →
      ∃ u, pull_ollama_model envAllOk m.1 = .ok u := by
    intro m hm hav
    simp [check_model_available, envAllOk] at hav
  exact ((last_error_discipline envAllOk).2.2 hpull ⟨none, [], rfl⟩ rfl).2

/-- C9: the public health command never surfaces an error: it forwards a
successful probe verbatim and maps any probe failure to a healthy-false
answer. -/
theorem health_command_total (env : HealthEnv) :
    (∃ b, check_backend_health env = .ok b)
    ∧ (∀ b, check_health env = .ok b → check_backend_health env = .ok b)
    ∧ (∀ e, check_health env = .error e → check_backend_health env = .ok false) := by
  rcases hc : check_health env with e | b <;>
    simp [check_backend_health, hc]

/-- C9 witness: when the probe fails with a connection error the command
answers false rather than an error. -/
theorem health_command_total_witness :
    check_backend_health envHealthErr = .ok false :=
  (health_command_total envHealthErr).2.2 "connection refused" rfl

/-- C10: the two query commands leave the Status Store untouched and return
respectively the ready flag and a copy of the current status record, the
copy being equal as a value to the stored record. -/
theorem query_commands_readonly (st : BackendState) :
    (is_backend_ready st).2 = st
    ∧ (get_backend_status st).2 = st
    ∧ (is_backend_ready st).1 = .ok st.ready
    ∧ (get_backend_status st).1 = .ok (backend_status_clone st.status)
    ∧ backend_status_clone st.status = st.status :=
  ⟨rfl, rfl, rfl, rfl, rfl⟩

/-- C10 witness: the queries leave the freshly constructed state unchanged. -/
theorem query_commands_readonly_witness :
    (is_backend_ready initial_backend_state).2 = initial_backend_state :=
  (query_commands_readonly initial_backend_state).1

end LocalBook
